import Mathlib

/-!
Verification of the coordination-free drone-swarm simulation engine of this
repository, together with the client-side rendering and input-sanitising code.

The simulation engine itself (`simulation.py`, `drone_swarm.py`,
`algorithms/cbba.py`, `algorithms/cvt.py`, `algorithms/qipfd.py`, `app.py`) is
not shipped in this source tree; only its documentation, pseudocode and the
client that consumes its frames are.  The engine definitions below are
therefore modelled from the specification (and the pseudocode embedded in the
repository's documentation), as noted on each definition.  Real-valued
quantities are embedded as integers: positions are decimetres (`ℤ`), speeds are
metres per second (numerically equal to decimetres per tick, since one tick is
`dt = 0.1 s`), health is whole hit points (`ℕ`, so the clamp at zero is
truncated subtraction), and elapsed time is the tick counter.  The client code
(`App.jsx`, `DynamicPage.jsx`) is embedded directly from the source over `ℚ`.
-/

/-- Three-dimensional vector over `ℤ` (coordinates in decimetres). -/
structure Vec3 where
  x : ℤ
  y : ℤ
  z : ℤ
deriving DecidableEq, Repr

/-- Componentwise vector addition. -/
def Vec3.add (a b : Vec3) : Vec3 := ⟨a.x + b.x, a.y + b.y, a.z + b.z⟩

/-- Componentwise vector subtraction. -/
def Vec3.sub (a b : Vec3) : Vec3 := ⟨a.x - b.x, a.y - b.y, a.z - b.z⟩

/-- Scaling of a vector by an integer. -/
def Vec3.scale (k : ℤ) (a : Vec3) : Vec3 := ⟨k * a.x, k * a.y, k * a.z⟩

/-- Componentwise integer division of a vector. -/
def Vec3.idiv (a : Vec3) (d : ℤ) : Vec3 := ⟨a.x / d, a.y / d, a.z / d⟩

/-- Squared Euclidean norm of a vector. -/
def Vec3.sqNorm (a : Vec3) : ℤ := a.x * a.x + a.y * a.y + a.z * a.z

/-- Squared Euclidean distance between two points. -/
def Vec3.sqDist (a b : Vec3) : ℤ := (a.sub b).sqNorm

/-- Fuel-driven Newton iteration for the integer square root; the fuel makes
the recursion structural so that the kernel can evaluate it. -/
def isqrtGo (n : ℕ) : ℕ → ℕ → ℕ
  | 0, g => g
  | fuel + 1, g =>
    let g2 := (g + n / g) / 2
    if g2 < g then isqrtGo n fuel g2 else g

/-- Integer square root used as the observable distance measure. -/
def isqrt (n : ℕ) : ℕ := if n ≤ 1 then n else isqrtGo n 96 (n / 2 + 1)

/-- Observable distance between two points, in decimetres. -/
def distDm (a b : Vec3) : ℕ := isqrt (Vec3.sqDist a b).toNat

/-- Linear congruential pseudo-random generator (Numerical Recipes constants),
the seed-deterministic source of all stochastic terms. -/
def lcg (n : ℕ) : ℕ := (1664525 * n + 1013904223) % 4294967296

/-- Seed-deterministic pseudo-random draw mixed from the run seed, the tick
counter and two salts (typically agent ids). -/
def randDraw (seed a b c : ℕ) : ℕ := lcg (seed + 2654435761 * a + 40503 * b + 9176 * c)

/-- Modelled from the spec: the deterministic integer hash of an
(agent, candidate) pair used by the Assignment Protocol,
`(drone_id * 7919 + enemy_id * 6547) mod 1000` (the pseudocode of
`algorithms/cbba.py`, which is missing from this tree, is quoted in the
repository documentation). -/
def hashScore (did eid : ℕ) : ℕ := (did * 7919 + eid * 6547) % 1000

/-- Effective score denominator for a distance of `ddm` decimetres:
`max ddm 10` decimetres is exactly `10 * max (d, 1)` for `d` in metres, so
`10000 / effDen ddm` equals the inverse-distance bonus `1000 / max (d, 1)`. -/
def effDen (ddm : ℕ) : ℕ := max ddm 10

/-- Exact comparison `h1 + 10000/m1 > h2 + 10000/m2` of two assignment scores,
cross-multiplied so that it is decided in integer arithmetic. -/
def scoreGtB (h1 m1 h2 m2 : ℕ) : Bool :=
  decide (h2 * (m1 * m2) + 10000 * m1 < h1 * (m1 * m2) + 10000 * m2)

/-- Exact equality test `h1 + 10000/m1 = h2 + 10000/m2` of two assignment
scores, cross-multiplied into integer arithmetic. -/
def scoreEqB (h1 m1 h2 m2 : ℕ) : Bool :=
  decide (h1 * (m1 * m2) + 10000 * m2 = h2 * (m1 * m2) + 10000 * m1)

/-- The Assignment Protocol priority as the specification states it over ℚ:
`priority = hash(agentId, candidateId) mod K + c / max(distance, ε)` with
`K = 1000`, `c = 1000`, `ε = 1` and the distance in metres. -/
def scoreQ (did eid : ℕ) (d : ℚ) : ℚ := (hashScore did eid : ℚ) + 1000 / max d 1

/-- Behavioural role of a friendly drone. -/
inductive Role where
  | defender
  | hunter
  | interceptor
deriving DecidableEq, Repr

/-- Kind of an agent. -/
inductive Kind where
  | friendly
  | enemyAir
  | enemyGround
deriving DecidableEq, Repr

/-- Modelled from the spec: an agent (drone or enemy) of the Entity Model.
Positions are decimetres, velocities metres per second (= decimetres per
tick), health whole hit points, ranges decimetres. -/
structure Agent where
  id : ℕ
  kind : Kind
  pos : Vec3
  vel : Vec3
  health : ℕ
  maxHealth : ℕ
  maxSpeed : ℕ
  weaponRange : ℕ
  detectRange : ℕ
  role : Role
  target : Option ℕ
deriving DecidableEq, Repr

/-- An agent is active while its health is positive; at zero health it stays
in the roster but is excluded from every computation. -/
def Agent.aliveB (a : Agent) : Bool := decide (0 < a.health)

/-- Modelled from the spec: a protected ground asset. -/
structure Asset where
  id : ℕ
  pos : Vec3
  health : ℕ
  value : ℕ
  protectRadius : ℕ
  breachRadius : ℕ
deriving DecidableEq, Repr

/-- Asset placement supplied by the scenario configuration. -/
structure AssetSpec where
  pos : Vec3
  value : ℕ
deriving DecidableEq, Repr

/-- Modelled from the spec: the scenario configuration, immutable once the
simulation starts.  `ground_pct` is the ground-attack ratio in percent,
`max_time` is in seconds, ranges in metres. -/
structure Config where
  friendly_count : ℕ
  enemy_count : ℕ
  ground_pct : ℕ
  max_time : ℕ
  max_speed : ℕ
  weapon_range : ℕ
  detection_range : ℕ
  swarm_algorithm : String
  assets : List AssetSpec
  record_stride : ℕ
deriving DecidableEq, Repr

/-- Detection range of a configuration in decimetres. -/
def detectDm (cfg : Config) : ℕ := 10 * cfg.detection_range

/-- Weapon range of a configuration in decimetres. -/
def weaponDm (cfg : Config) : ℕ := 10 * cfg.weapon_range

/-- Per-agent record of a recorded frame: exactly the observable state the
specification lists (position, velocity, health, role, target id). -/
structure FrameAgent where
  id : ℕ
  pos : Vec3
  vel : Vec3
  health : ℕ
  role : Role
  target : Option ℕ
deriving DecidableEq, Repr

/-- Per-asset record of a recorded frame. -/
structure FrameAsset where
  id : ℕ
  pos : Vec3
  health : ℕ
deriving DecidableEq, Repr

/-- One recorded snapshot of all entity states at a simulation tick. -/
structure Frame where
  tick : ℕ
  friendlies : List FrameAgent
  enemies : List FrameAgent
  assets : List FrameAsset
deriving DecidableEq, Repr

/-- Lifecycle status of a simulation. -/
inductive SimStatus where
  | running
  | completed
  | failed
deriving DecidableEq, Repr

/-- Modelled from the spec: summary statistics reported after a run. -/
structure Stats where
  durationTicks : ℕ
  friendlyLosses : ℕ
  enemyLosses : ℕ
  survivalPct : ℕ
  assetsProtected : ℕ
  missionSuccess : Bool
deriving DecidableEq, Repr

/-- Modelled from the spec: the full state of one simulation. -/
structure SimState where
  cfg : Config
  seed : ℕ
  tick : ℕ
  friendlies : List Agent
  enemies : List Agent
  assets : List Asset
  status : SimStatus
  frames : List Frame
  combatEvents : ℕ
deriving DecidableEq, Repr

/-- Projection of an agent to its recorded frame fields. -/
def toFA (a : Agent) : FrameAgent :=
  { id := a.id, pos := a.pos, vel := a.vel, health := a.health, role := a.role,
    target := a.target }

/-- Projection of an asset to its recorded frame fields. -/
def toFAsset (g : Asset) : FrameAsset := { id := g.id, pos := g.pos, health := g.health }

/-- Snapshot of the current entity states as a frame. -/
def toFrame (s : SimState) : Frame :=
  { tick := s.tick, friendlies := s.friendlies.map toFA,
    enemies := s.enemies.map toFA, assets := s.assets.map toFAsset }

/-- Range test on squared distances (exact, no square root needed). -/
def withinB (rdm : ℕ) (p q : Vec3) : Bool := decide (Vec3.sqDist p q ≤ (rdm : ℤ) * (rdm : ℤ))

/-- A frame-level agent observes a point while it is active and the point is
within its detection range. -/
def faObserves (d : FrameAgent) (epos : Vec3) (rdm : ℕ) : Bool :=
  decide (0 < d.health) && withinB rdm d.pos epos

/-- Assignment-score of a frame-level agent for an enemy at `epos`, as the
specification's ℚ formula, with the observable distance in metres. -/
def faScoreQ (epos : Vec3) (eid : ℕ) (d : FrameAgent) : ℚ :=
  scoreQ d.id eid ((distDm d.pos epos : ℚ) / 10)

/-- Strict priority between two candidate owners of the enemy `eid` at `epos`:
strictly higher score, or an exact score tie broken towards the lower agent
id.  Computed entirely in integer arithmetic. -/
def faBeats (epos : Vec3) (eid : ℕ) (a b : FrameAgent) : Bool :=
  let ha := hashScore a.id eid
  let ma := effDen (distDm a.pos epos)
  let hb := hashScore b.id eid
  let mb := effDen (distDm b.pos epos)
  scoreGtB ha ma hb mb || (scoreEqB ha ma hb mb && decide (a.id < b.id))

/-- One selection step of the owner fold: keep the stronger candidate. -/
def pickOwner (epos : Vec3) (eid : ℕ) (acc : Option FrameAgent) (d : FrameAgent) :
    Option FrameAgent :=
  match acc with
  | none => some d
  | some b => if faBeats epos eid d b then some d else some b

/-- Modelled from the spec: the Assignment Protocol's primary-owner
computation for the enemy `eid` at `epos` — among the active observers within
detection range `rdm`, the agent with the maximal score, exact ties going to
the lower id.  A pure function of observable frame data only. -/
def ownerCore (fs : List FrameAgent) (epos : Vec3) (eid : ℕ) (rdm : ℕ) :
    Option FrameAgent :=
  (fs.filter (fun d => faObserves d epos rdm)).foldl (pickOwner epos eid) none

/-- Primary owner of an enemy computed from the live simulation state. -/
def simOwnerId (s : SimState) (e : Agent) : Option ℕ :=
  (ownerCore (s.friendlies.map toFA) e.pos e.id (detectDm s.cfg)).map (fun d => d.id)

/-- Primary owner of the enemy with id `eid` re-derived from a recorded frame
alone (plus the shared detection-range constant), without simulating. -/
def frameOwnerId (f : Frame) (rdm : ℕ) (eid : ℕ) : Option ℕ :=
  (f.enemies.find? (fun e => e.id == eid)).bind
    (fun e => (ownerCore f.friendlies e.pos eid rdm).map (fun d => d.id))

/-- The property of being the unique primary owner: an active observer that
strictly beats every other active observer (score, then lower id). -/
def IsPrimaryOwner (fs : List FrameAgent) (epos : Vec3) (eid : ℕ) (rdm : ℕ)
    (d : FrameAgent) : Prop :=
  d ∈ fs ∧ faObserves d epos rdm = true ∧
    ∀ x ∈ fs, faObserves x epos rdm = true → x.id ≠ d.id → faBeats epos eid d x = true

/-- Position of the primary (first-listed) asset; the origin when the
scenario has no assets. -/
def primaryAssetPos (cfg : Config) : Vec3 :=
  match cfg.assets with
  | [] => ⟨0, 0, 0⟩
  | a :: _ => a.pos

/-- Scale a vector to the given speed (magnitude in m/s = dm/tick), via the
observable integer distance; the zero vector stays zero. -/
def scaleTo (v : Vec3) (speed : ℕ) : Vec3 :=
  let n := isqrt v.sqNorm.toNat
  if n = 0 then ⟨0, 0, 0⟩ else (v.scale (speed : ℤ)).idiv (n : ℤ)

/-- Modelled from the spec: friendly drone `i` at scenario start — deployed in
a deterministic high forward ring around the primary asset, 150 HP, default
Interceptor role, zero velocity (`simulation.py` is missing from this tree). -/
def mkFriendly (cfg : Config) (i : ℕ) : Agent :=
  { id := i, kind := .friendly
    pos := (primaryAssetPos cfg).add ⟨4000 + 120 * (i : ℤ), 3000, 1500 * ((i : ℤ) % 4)⟩
    vel := ⟨0, 0, 0⟩, health := 150, maxHealth := 150
    maxSpeed := cfg.max_speed, weaponRange := weaponDm cfg, detectRange := detectDm cfg
    role := .interceptor, target := none }

/-- Modelled from the spec: enemy drone `j` at scenario start — a
ground/air mix determined by the ground-attack ratio, spawned 1000–1400 m out
with a modest velocity towards the primary asset, 80 HP
(`simulation.py` is missing from this tree). -/
def mkEnemy (cfg : Config) (j : ℕ) : Agent :=
  let isGround : Bool := decide (100 * j < cfg.ground_pct * cfg.enemy_count)
  let pos : Vec3 :=
    ⟨10000 + (37 * (j : ℤ)) % 4000, if isGround then 0 else 2000,
      12000 - 900 * ((j : ℤ) % 8)⟩
  { id := j, kind := if isGround then .enemyGround else .enemyAir
    pos := pos
    vel := scaleTo ((primaryAssetPos cfg).sub pos) (if isGround then 40 else 45)
    health := 80, maxHealth := 80, maxSpeed := if isGround then 40 else 45
    weaponRange := weaponDm cfg, detectRange := detectDm cfg
    role := .defender, target := none }

/-- Modelled from the spec: an asset starts at 100 HP with a 400 m protection
radius and a 200 m breach threshold. -/
def mkAsset (i : ℕ) (a : AssetSpec) : Asset :=
  { id := i, pos := a.pos, health := 100, value := a.value,
    protectRadius := 4000, breachRadius := 2000 }

/-- Modelled from the spec: allocate the entity roster for a configuration;
no tick has run yet. -/
def initSim (cfg : Config) (seed : ℕ) : SimState :=
  { cfg := cfg, seed := seed, tick := 0
    friendlies := (List.range cfg.friendly_count).map (mkFriendly cfg)
    enemies := (List.range cfg.enemy_count).map (mkEnemy cfg)
    assets := cfg.assets.enum.map (fun p => mkAsset p.1 p.2)
    status := .running, frames := [], combatEvents := 0 }

/-- An active ground enemy inside this friendly's detection range. -/
def groundThreatNear (s : SimState) (a : Agent) : Bool :=
  s.enemies.any (fun e =>
    e.aliveB && decide (e.kind = .enemyGround) && withinB a.detectRange a.pos e.pos)

/-- Observable force comparison: more active enemy air units than active
friendlies inside this agent's detection range. -/
def airDensityExceeds (s : SimState) (a : Agent) : Bool :=
  let air := s.enemies.countP (fun e =>
    e.aliveB && decide (e.kind = .enemyAir) && withinB a.detectRange a.pos e.pos)
  let fr := s.friendlies.countP (fun f => f.aliveB && withinB a.detectRange a.pos f.pos)
  decide (fr < air)

/-- Modelled from the spec: the Role State Machine — evaluated independently
per friendly from local observations only; an 80% seed-deterministic bias
towards Interceptor when a ground threat is near, Hunter when enemy air
density exceeds friendly density, Defender otherwise. -/
def updateRole (s : SimState) (a : Agent) : Agent :=
  if a.aliveB then
    { a with role :=
        if groundThreatNear s a then
          (if randDraw s.seed s.tick a.id 1 % 100 < 80 then .interceptor else .defender)
        else if airDensityExceeds s a then .hunter
        else .defender }
  else a

/-- Phase 1 of a tick: recompute every friendly's role. -/
def rolePhase (s : SimState) : SimState :=
  { s with friendlies := s.friendlies.map (updateRole s) }

/-- Modelled from the spec: communication-free greedy target selection — scan
the active enemies within own detection range and keep the one with the
maximal deterministic hash-plus-inverse-distance score. -/
def chooseTarget (s : SimState) (a : Agent) : Option ℕ :=
  ((s.enemies.filter (fun e => e.aliveB && withinB a.detectRange a.pos e.pos)).foldl
    (fun acc e =>
      match acc with
      | none => some e
      | some b =>
        if scoreGtB (hashScore a.id e.id) (effDen (distDm a.pos e.pos))
            (hashScore a.id b.id) (effDen (distDm a.pos b.pos)) then some e else some b)
    none).map (fun e => e.id)

/-- Phase 2 of a tick: recompute every active friendly's target assignment. -/
def assignPhase (s : SimState) : SimState :=
  { s with friendlies := s.friendlies.map (fun a =>
      if a.aliveB then { a with target := chooseTarget s a } else a) }

/-- The three interchangeable navigation strategies. -/
inductive Strategy where
  | greedy
  | tessellation
  | quantum
deriving DecidableEq, Repr

/-- Configuration string to strategy tag; unknown strings fall back to the
greedy default (validation rejects them before a simulation starts). -/
def parseStrategy (x : String) : Strategy :=
  if x = "cvt-cbf" then .tessellation else if x = "qipfd" then .quantum else .greedy

/-- Enemy with the given id, if any. -/
def findEnemy (s : SimState) (tid : ℕ) : Option Agent :=
  s.enemies.find? (fun e => e.id == tid)

/-- Nearest asset that is still standing. -/
def nearestAsset (s : SimState) (a : Agent) : Option Asset :=
  (s.assets.filter (fun g => decide (0 < g.health))).foldl
    (fun acc g =>
      match acc with
      | none => some g
      | some b => if Vec3.sqDist a.pos g.pos < Vec3.sqDist a.pos b.pos then some g else some b)
    none

/-- Modelled from the spec: Greedy-Consensus field — a vector towards the
assigned target scaled to max speed plus a small asset-protection bias. -/
def greedyVel (s : SimState) (a : Agent) : Vec3 :=
  let tv : Vec3 :=
    match a.target.bind (findEnemy s) with
    | some e => scaleTo (e.pos.sub a.pos) a.maxSpeed
    | none => ⟨0, 0, 0⟩
  let av : Vec3 :=
    match nearestAsset s a with
    | some g => scaleTo (g.pos.sub a.pos) (a.maxSpeed / 10)
    | none => ⟨0, 0, 0⟩
  tv.add av

/-- Fixed sampling offsets used for the local Voronoi cell approximation. -/
def cvtOffsets : List Vec3 :=
  [⟨1000, 0, 0⟩, ⟨-1000, 0, 0⟩, ⟨0, 0, 1000⟩, ⟨0, 0, -1000⟩,
   ⟨700, 0, 700⟩, ⟨-700, 0, 700⟩, ⟨700, 0, -700⟩, ⟨-700, 0, -700⟩]

/-- Modelled from the spec: Tessellation+Barrier field — sample candidate
points, keep those closer to this agent than to any observed friendly, move
towards the threat-weighted centroid, and add a barrier repulsion from any
observed friendly closer than the safety margin. -/
def cvtVel (s : SimState) (a : Agent) : Vec3 :=
  let obs := s.friendlies.filter (fun f =>
    f.aliveB && decide (f.id ≠ a.id) && withinB a.detectRange a.pos f.pos)
  let mine := (cvtOffsets.map (fun o => a.pos.add o)).filter (fun p =>
    obs.all (fun f => decide (Vec3.sqDist a.pos p ≤ Vec3.sqDist f.pos p)))
  let weighted := mine.map (fun p =>
    (1 + s.enemies.countP (fun e => e.aliveB && withinB 5000 p e.pos), p))
  let wsum := (weighted.map (fun w => w.1)).sum
  let base : Vec3 :=
    if wsum = 0 then ⟨0, 0, 0⟩
    else
      let cx := ((weighted.map (fun w => w.2.scale (w.1 : ℤ))).foldl Vec3.add
        ⟨0, 0, 0⟩).idiv (wsum : ℤ)
      scaleTo (cx.sub a.pos) a.maxSpeed
  obs.foldl (fun v f =>
    if Vec3.sqDist a.pos f.pos < 500 * 500 then v.add (scaleTo (a.pos.sub f.pos) a.maxSpeed)
    else v) base

/-- Modelled from the spec: Quantum-Weighted Potential field — attraction to
every observed enemy, weighted 10:1 in favour of targets this agent
deterministically owns, a seed-deterministic tunneling perturbation when no
enemy is visible, and repulsion from observed friendlies inside the minimum
spacing. -/
def qipfdVel (s : SimState) (a : Agent) : Vec3 :=
  let vis := s.enemies.filter (fun e => e.aliveB && withinB a.detectRange a.pos e.pos)
  let attract := vis.foldl (fun (v : Vec3) e =>
    let w : ℕ := if simOwnerId s e = some a.id then 10 else 1
    v.add (scaleTo (e.pos.sub a.pos) (w * 1000 / (10 + distDm a.pos e.pos / 10)))) ⟨0, 0, 0⟩
  let tunnel : Vec3 :=
    if vis.isEmpty then
      ⟨(randDraw s.seed s.tick a.id 2 % 21 : ℤ) - 10, 0,
        (randDraw s.seed s.tick a.id 3 % 21 : ℤ) - 10⟩
    else ⟨0, 0, 0⟩
  let rep := s.friendlies.foldl (fun (v : Vec3) f =>
    if f.aliveB && decide (f.id ≠ a.id) && withinB 400 a.pos f.pos then
      v.add (scaleTo (a.pos.sub f.pos) 20)
    else v) ⟨0, 0, 0⟩
  (attract.add tunnel).add rep

/-- Desired velocity of a friendly under the configured navigation
strategy. -/
def desiredVel (s : SimState) (a : Agent) : Vec3 :=
  match parseStrategy s.cfg.swarm_algorithm with
  | .greedy => greedyVel s a
  | .tessellation => cvtVel s a
  | .quantum => qipfdVel s a

/-- Clamp a velocity to the maximum speed. -/
def clampSpeed (smax : ℕ) (v : Vec3) : Vec3 :=
  if v.sqNorm ≤ (smax : ℤ) * (smax : ℤ) then v else scaleTo v smax

/-- Fixed smoothing: 70% of the new desired velocity blended with 30% of the
previous tick's velocity. -/
def blendVel (vOld vNew : Vec3) : Vec3 := ((vNew.scale 7).add (vOld.scale 3)).idiv 10

/-- Nearest active friendly, the target of enemy air units. -/
def nearestAliveFriendly (s : SimState) (e : Agent) : Option Agent :=
  (s.friendlies.filter (fun f => f.aliveB)).foldl
    (fun acc f =>
      match acc with
      | none => some f
      | some b => if Vec3.sqDist e.pos f.pos < Vec3.sqDist e.pos b.pos then some f else some b)
    none

/-- Modelled from the spec: enemy motion — ground enemies march towards the
nearest standing asset at 40 m/s and halt at the breach threshold; air
enemies chase the nearest active friendly at 45 m/s and halt at close
proximity. -/
def enemyVel (s : SimState) (e : Agent) : Vec3 :=
  match e.kind with
  | .enemyGround =>
    match nearestAsset s e with
    | some g =>
      if Vec3.sqDist e.pos g.pos ≤ (g.breachRadius : ℤ) * (g.breachRadius : ℤ) then ⟨0, 0, 0⟩
      else scaleTo (g.pos.sub e.pos) 40
    | none => ⟨0, 0, 0⟩
  | .enemyAir =>
    match nearestAliveFriendly s e with
    | some f =>
      if Vec3.sqDist e.pos f.pos ≤ 1000 * 1000 then ⟨0, 0, 0⟩
      else scaleTo (f.pos.sub e.pos) 45
    | none => ⟨0, 0, 0⟩
  | .friendly => ⟨0, 0, 0⟩

/-- Phase 3 of a tick: recompute desired velocities — friendlies through the
configured navigation strategy (clamped to max speed and blended with the
previous velocity), enemies through the enemy AI. -/
def velocityPhase (s : SimState) : SimState :=
  { s with
    friendlies := s.friendlies.map (fun a =>
      if a.aliveB then { a with vel := blendVel a.vel (clampSpeed a.maxSpeed (desiredVel s a)) }
      else a)
    enemies := s.enemies.map (fun e =>
      if e.aliveB then { e with vel := enemyVel s e } else e) }

/-- Phase 4 of a tick: integrate positions, `pos += v * dt` (velocities are
stored per tick, so the per-tick displacement is exactly the velocity). -/
def integratePhase (s : SimState) : SimState :=
  { s with
    friendlies := s.friendlies.map (fun a =>
      if a.aliveB then { a with pos := a.pos.add a.vel } else a)
    enemies := s.enemies.map (fun e =>
      if e.aliveB then { e with pos := e.pos.add e.vel } else e) }

/-- Hit probability in permille: ~90% close in, decaying linearly with
range beyond a near threshold. -/
def hitPermille (ddm : ℕ) : ℕ := if ddm ≤ 500 then 900 else 900 - (ddm - 500) / 10

/-- Modelled from the spec: damage dealt this tick by friendly `d` to enemy
`e` — requires both active, `e` assigned as `d`'s target and within weapon
range; a seed-deterministic hit draw then deals 40–60 HP. -/
def pairDamageFE (s : SimState) (d e : Agent) : ℕ :=
  if d.aliveB && e.aliveB && (d.target == some e.id)
      && withinB d.weaponRange d.pos e.pos then
    if randDraw s.seed s.tick (4000 + d.id) e.id % 1000 < hitPermille (distDm d.pos e.pos) then
      40 + randDraw s.seed s.tick (5000 + d.id) e.id % 21
    else 0
  else 0

/-- Modelled from the spec: damage dealt this tick by enemy air unit `e` to
friendly `d` — `e` attacks the nearest active friendly within weapon range;
a seed-deterministic hit draw then deals 15–25 HP. -/
def pairDamageEF (s : SimState) (e d : Agent) : ℕ :=
  if e.aliveB && d.aliveB && decide (e.kind = .enemyAir)
      && ((nearestAliveFriendly s e).map (fun f => f.id) == some d.id)
      && withinB e.weaponRange e.pos d.pos then
    if randDraw s.seed s.tick (6000 + e.id) d.id % 1000 < hitPermille (distDm e.pos d.pos) then
      15 + randDraw s.seed s.tick (7000 + e.id) d.id % 11
    else 0
  else 0

/-- Modelled from the spec: siege damage dealt this tick by ground enemy `e`
to asset `g` — a flat 5 HP whenever `e` is active inside the breach
threshold, regardless of weapon range. -/
def breachDamage (e : Agent) (g : Asset) : ℕ :=
  if e.aliveB && decide (e.kind = .enemyGround) && decide (0 < g.health)
      && withinB g.breachRadius e.pos g.pos then 5 else 0

/-- Phase 5 of a tick: resolve combat — every defender loses the summed
damage of all attacker-target pairs aimed at it, truncated at zero health;
the combat-event counter adds every hit and breach. -/
def combatPhase (s : SimState) : SimState :=
  { s with
    friendlies := s.friendlies.map (fun d =>
      { d with health := d.health - (s.enemies.map (fun e => pairDamageEF s e d)).sum })
    enemies := s.enemies.map (fun e =>
      { e with health := e.health - (s.friendlies.map (fun d => pairDamageFE s d e)).sum })
    assets := s.assets.map (fun g =>
      { g with health := g.health - (s.enemies.map (fun e => breachDamage e g)).sum })
    combatEvents := s.combatEvents
      + (s.enemies.map (fun e => s.friendlies.countP (fun d => decide (0 < pairDamageFE s d e)))).sum
      + (s.friendlies.map (fun d => s.enemies.countP (fun e => decide (0 < pairDamageEF s e d)))).sum
      + (s.assets.map (fun g => s.enemies.countP (fun e => decide (0 < breachDamage e g)))).sum }

/-- All agents of a roster destroyed (vacuously true of an empty roster). -/
def allAgentsDead (l : List Agent) : Bool := l.all (fun a => a.health == 0)

/-- All assets destroyed (vacuously true of an empty list). -/
def allAssetsDead (l : List Asset) : Bool := l.all (fun g => g.health == 0)

/-- The tick budget of a run: `max_time / dt` ticks with `dt = 0.1 s`. -/
def maxTicks (cfg : Config) : ℕ := 10 * cfg.max_time

/-- The fixed timestep, in seconds. -/
def dtQ : ℚ := 1 / 10

/-- Phase 6 of a tick: evaluate termination — Completed when all enemies are
destroyed, all friendlies are destroyed, all assets are destroyed, or the
elapsed time after this tick reaches `max_time`. -/
def terminatePhase (s : SimState) : SimState :=
  { s with status :=
      if allAgentsDead s.enemies || allAgentsDead s.friendlies || allAssetsDead s.assets
          || decide (maxTicks s.cfg ≤ s.tick + 1) then .completed
      else .running }

/-- Phase 7 of a tick: advance the tick counter and optionally append a frame
(at the configured recording stride). -/
def recordPhase (s : SimState) : SimState :=
  let s2 := { s with tick := s.tick + 1 }
  { s2 with frames :=
      if s2.tick % max s.cfg.record_stride 1 = 0 then s2.frames ++ [toFrame s2]
      else s2.frames }

/-- Modelled from the spec: one simulation tick (`SuperSimulation.step` of the
missing `simulation.py`, whose pseudocode the repository documentation
quotes): recompute roles, recompute assignments, compute desired velocities
with the configured navigation strategy, integrate positions, resolve combat,
evaluate termination, and optionally record a frame — in that order, each
stage reading only the state left by the previous ones.  A simulation that is
no longer running is left untouched. -/
def step (s : SimState) : SimState :=
  if s.status = .running then
    let sR : SimState := { s with friendlies := s.friendlies.map (updateRole s) }
    let sT : SimState := { sR with friendlies := sR.friendlies.map (fun a =>
      if a.aliveB then { a with target := chooseTarget sR a } else a) }
    let sV : SimState := { sT with
      friendlies := sT.friendlies.map (fun a =>
        if a.aliveB then
          { a with vel := blendVel a.vel (clampSpeed a.maxSpeed (desiredVel sT a)) }
        else a)
      enemies := sT.enemies.map (fun e =>
        if e.aliveB then { e with vel := enemyVel sT e } else e) }
    let sI : SimState := { sV with
      friendlies := sV.friendlies.map (fun a =>
        if a.aliveB then { a with pos := a.pos.add a.vel } else a)
      enemies := sV.enemies.map (fun e =>
        if e.aliveB then { e with pos := e.pos.add e.vel } else e) }
    let sC : SimState := { sI with
      friendlies := sI.friendlies.map (fun d =>
        { d with health := d.health - (sI.enemies.map (fun e => pairDamageEF sI e d)).sum })
      enemies := sI.enemies.map (fun e =>
        { e with health := e.health - (sI.friendlies.map (fun d => pairDamageFE sI d e)).sum })
      assets := sI.assets.map (fun g =>
        { g with health := g.health - (sI.enemies.map (fun e => breachDamage e g)).sum })
      combatEvents := sI.combatEvents
        + (sI.enemies.map (fun e =>
            sI.friendlies.countP (fun d => decide (0 < pairDamageFE sI d e)))).sum
        + (sI.friendlies.map (fun d =>
            sI.enemies.countP (fun e => decide (0 < pairDamageEF sI e d)))).sum
        + (sI.assets.map (fun g =>
            sI.enemies.countP (fun e => decide (0 < breachDamage e g)))).sum }
    let sF : SimState := { sC with status :=
      (if allAgentsDead sC.enemies || allAgentsDead sC.friendlies || allAssetsDead sC.assets
          || decide (maxTicks sC.cfg ≤ sC.tick + 1) then SimStatus.completed
      else SimStatus.running) }
    let s2 : SimState := { sF with tick := sF.tick + 1 }
    { s2 with frames :=
        if s2.tick % max sF.cfg.record_stride 1 = 0 then s2.frames ++ [toFrame s2]
        else s2.frames }
  else s

/-- State of a run after `n` ticks from a fresh scenario. -/
def runState (cfg : Config) (seed n : ℕ) : SimState := step^[n] (initSim cfg seed)

/-- The run completes exactly at tick `n`: the stepping loop, which stops at
the first Completed status, has then produced the frames of `runState n`. -/
def CompletesAt (cfg : Config) (seed n : ℕ) : Prop :=
  (runState cfg seed n).status = .completed ∧
    ∀ m < n, (runState cfg seed m).status ≠ .completed

/-- The navigation strategies the configuration may name. -/
def knownStrategy (x : String) : Bool := x = "cbba" || x = "cvt-cbf" || x = "qipfd"

/-- Modelled from the spec: configuration validation — positive counts,
positive ranges/speeds/time, a known navigation strategy, a nonempty asset
list. -/
def validConfig (cfg : Config) : Bool :=
  decide (0 < cfg.friendly_count) && decide (0 < cfg.enemy_count)
    && decide (0 < cfg.weapon_range) && decide (0 < cfg.detection_range)
    && decide (0 < cfg.max_speed) && decide (0 < cfg.max_time)
    && knownStrategy cfg.swarm_algorithm && !(cfg.assets.isEmpty)

/-- Modelled from the spec: `start(config)` — validate the configuration and
either fail fast with a descriptive error, producing no simulation handle, or
allocate the entities and return the initial state before any tick runs. -/
def startSim (cfg : Config) (seed : ℕ) : Except String SimState :=
  if !(decide (0 < cfg.friendly_count)) then .error "friendly_count must be positive"
  else if !(decide (0 < cfg.enemy_count)) then .error "enemy_count must be positive"
  else if !(decide (0 < cfg.weapon_range)) then .error "weapon_range must be positive"
  else if !(decide (0 < cfg.detection_range)) then .error "detection_range must be positive"
  else if !(decide (0 < cfg.max_speed)) then .error "max_speed must be positive"
  else if !(decide (0 < cfg.max_time)) then .error "max_time must be positive"
  else if !(knownStrategy cfg.swarm_algorithm) then .error "unknown swarm_algorithm"
  else if cfg.assets.isEmpty then .error "assets must be nonempty"
  else .ok (initSim cfg seed)

/-- Modelled from the spec: the summary statistics of a state — mission
success means every asset survived and at least 80% of the enemies were
destroyed. -/
def statistics (s : SimState) : Stats :=
  let deadF := s.friendlies.countP (fun a => a.health == 0)
  let deadE := s.enemies.countP (fun a => a.health == 0)
  { durationTicks := s.tick
    friendlyLosses := deadF
    enemyLosses := deadE
    survivalPct := 100 * (s.friendlies.length - deadF) / max s.friendlies.length 1
    assetsProtected := s.assets.countP (fun g => decide (0 < g.health))
    missionSuccess := s.assets.all (fun g => decide (0 < g.health))
      && decide (4 * s.enemies.length ≤ 5 * deadE) }

/-- Embedded from `createHealthBar` in `App.jsx` (line 562) and
`DynamicPage.jsx` (line 42): the drawn fill fraction of a health bar is the
input fraction clamped to `[0, 1]` —
`ctx.fillRect(0, 0, Math.max(0, Math.min(1, percentage)) * 64, 8)` on the
64-pixel-wide bar. -/
def createHealthBarFill (p : ℚ) : ℚ := max 0 (min 1 p)

/-- Embedded from `App.jsx` line 316 and `DynamicPage.jsx` line 181: the
fraction passed for a friendly's health bar is `drone.health / 150`. -/
def friendlyBarArg (h : ℚ) : ℚ := h / 150

/-- Embedded from `App.jsx` line 383 and `DynamicPage.jsx` line 240: the
fraction passed for an enemy's health bar is `drone.health / 85`. -/
def enemyBarArg (h : ℚ) : ℚ := h / 85

/-- Embedded from `App.jsx` line 289 and `DynamicPage.jsx` line 150: the
fraction passed for an asset's health bar is `asset.health / 100` when the
health field is present, `1.0` otherwise. -/
def assetBarArg : Option ℚ → ℚ
  | some h => h / 100
  | none => 1

/-- A JavaScript number: either a finite value or one of the non-finite
floats (`NaN`, `±Infinity`). -/
inductive JSNum where
  | fin (q : ℚ)
  | nan
  | infPos
  | infNeg
deriving DecidableEq, Repr

/-- `Number.isFinite`. -/
def JSNum.isFinite : JSNum → Bool
  | .fin _ => true
  | _ => false

/-- A JavaScript value as `sanitizeNumber` discriminates it: a number, a
string (abstracted to whether its trim is nonempty together with the result
of `Number(value)`), or anything else. -/
inductive JSValue where
  | num (n : JSNum)
  | str (trimNonempty : Bool) (parsed : JSNum)
  | other
deriving DecidableEq, Repr

/-- Embedded from `sanitizeNumber` in `App.jsx` (lines 141–148): a finite
number is returned as is; a string whose trim is nonempty and which parses to
a finite number yields the parsed value; everything else yields the
fallback. -/
def sanitizeNumber : JSValue → JSNum → JSNum
  | .num (.fin q), _ => .fin q
  | .str true (.fin q), _ => .fin q
  | _, fb => fb

/-- An asset entry of the scenario form, after coordinate extraction: the
four values that are passed through `sanitizeNumber`. -/
structure RawAsset where
  x : JSValue
  y : JSValue
  z : JSValue
  value : JSValue
deriving DecidableEq, Repr

/-- The user-typed scenario form fields that `prepareScenarioPayload`
sanitises. -/
structure RawScenario where
  friendly_count : JSValue
  enemy_count : JSValue
  ground_attack_ratio : JSValue
  max_time : JSValue
  max_speed : JSValue
  weapon_range : JSValue
  detection_range : JSValue
  assets : List RawAsset
deriving DecidableEq, Repr

/-- Embedded from `prepareScenarioPayload` in `App.jsx` (lines 149–204):
every numeric field of the scenario payload, each being `sanitizeNumber`
applied to the corresponding form value with its default (defaults 20, 15,
0.4, 120, 70, 150, 1500; asset coordinates default 0 and the asset value
defaults to `1 + idx * 0.1`). -/
def prepareScenarioNumbers (r : RawScenario) : List JSNum :=
  [sanitizeNumber r.friendly_count (.fin 20),
   sanitizeNumber r.enemy_count (.fin 15),
   sanitizeNumber r.ground_attack_ratio (.fin (2 / 5)),
   sanitizeNumber r.max_time (.fin 120),
   sanitizeNumber r.max_speed (.fin 70),
   sanitizeNumber r.weapon_range (.fin 150),
   sanitizeNumber r.detection_range (.fin 1500)]
  ++ (r.assets.enum.map (fun p =>
      [sanitizeNumber p.2.x (.fin 0), sanitizeNumber p.2.y (.fin 0),
       sanitizeNumber p.2.z (.fin 0),
       sanitizeNumber p.2.value (.fin (1 + (p.1 : ℚ) / 10))])).flatten

/-- A small valid scenario used to instantiate the universally quantified
theorems below on concrete data. -/
def cfgA : Config :=
  { friendly_count := 1, enemy_count := 1, ground_pct := 0, max_time := 1,
    max_speed := 70, weapon_range := 150, detection_range := 1500,
    swarm_algorithm := "cbba", assets := [⟨⟨0, 0, 0⟩, 1⟩], record_stride := 1 }

/-- The zero-enemy scenario of the specification's test list. -/
def cfgZ : Config := { cfgA with enemy_count := 0 }

/-- An invalid scenario: no friendlies. -/
def cfgBad : Config := { cfgA with friendly_count := 0 }

/-- Two frame-level agents with identical positions whose ids differ by 1000,
so that their assignment hashes — and hence their whole scores — tie
exactly. -/
def tieA : FrameAgent :=
  { id := 0, pos := ⟨100, 0, 0⟩, vel := ⟨0, 0, 0⟩, health := 150,
    role := .defender, target := none }

/-- The other party of the exact score tie; see `tieA`. -/
def tieB : FrameAgent :=
  { id := 1000, pos := ⟨100, 0, 0⟩, vel := ⟨0, 0, 0⟩, health := 150,
    role := .defender, target := none }

/-- `HealthOK s` bounds every health by its maximum (the lower bound 0 is
carried by the `ℕ` representation). -/
def HealthOK (s : SimState) : Prop :=
  (∀ a ∈ s.friendlies, a.health ≤ a.maxHealth) ∧
  (∀ a ∈ s.enemies, a.health ≤ a.maxHealth) ∧
  (∀ g ∈ s.assets, g.health ≤ 100)

theorem stepStuck (s : SimState) (h : s.status ≠ .running) : step s = s := by
  simp [step, h]

theorem stepDecomp (s : SimState) (h : s.status = .running) :
    step s =
      recordPhase (terminatePhase (combatPhase (integratePhase
        (velocityPhase (assignPhase (rolePhase s)))))) := by
  simp only [step, h, if_true]
  rfl

theorem stepCfg (s : SimState) : (step s).cfg = s.cfg := by
  by_cases h : s.status = .running
  · simp [step, h]
  · simp [step, h]

theorem stepTickRun (s : SimState) (h : s.status = .running) :
    (step s).tick = s.tick + 1 := by
  simp [step, h]

theorem stepStatusNotFailed (s : SimState) (h : s.status ≠ .failed) :
    (step s).status ≠ .failed := by
  by_cases hr : s.status = .running
  · simp only [step, hr, if_true]
    split <;> simp
  · simpa [step, hr] using h

theorem stepRunStatus (s : SimState) (h : (step s).status = .running) :
    s.status = .running := by
  by_cases hr : s.status = .running
  · exact hr
  · rw [stepStuck s hr] at h; exact h

theorem stepRunTickLt (s : SimState) (h : (step s).status = .running) :
    (step s).tick < maxTicks s.cfg := by
  have hr := stepRunStatus s h
  rw [stepTickRun s hr]
  simp only [step, hr, if_true] at h
  by_contra hle
  push_neg at hle
  simp [show (decide (maxTicks s.cfg ≤ s.tick + 1)) = true from by simpa using hle] at h

theorem runStateCfg (cfg : Config) (seed n : ℕ) : (runState cfg seed n).cfg = cfg := by
  induction n with
  | zero => rfl
  | succ m ih =>
    have : runState cfg seed (m + 1) = step (runState cfg seed m) := by
      simp [runState, Function.iterate_succ_apply']
    rw [this, stepCfg, ih]

theorem runStateNotFailed (cfg : Config) (seed n : ℕ) :
    (runState cfg seed n).status ≠ .failed := by
  induction n with
  | zero => simp [runState, initSim]
  | succ m ih =>
    have : runState cfg seed (m + 1) = step (runState cfg seed m) := by
      simp [runState, Function.iterate_succ_apply']
    rw [this]
    exact stepStatusNotFailed _ ih

theorem runStateRun (cfg : Config) (seed : ℕ) (hm : 0 < maxTicks cfg) :
    ∀ n, (runState cfg seed n).status = .running →
      (runState cfg seed n).tick = n ∧ n < maxTicks cfg := by
  intro n
  induction n with
  | zero => exact fun _ => ⟨rfl, hm⟩
  | succ m ih =>
    intro h
    have hstep : runState cfg seed (m + 1) = step (runState cfg seed m) := by
      simp [runState, Function.iterate_succ_apply']
    rw [hstep] at h ⊢
    have hr := stepRunStatus _ h
    obtain ⟨ht, _⟩ := ih hr
    refine ⟨by rw [stepTickRun _ hr, ht], ?_⟩
    have := stepRunTickLt _ h
    rw [stepTickRun _ hr, ht, runStateCfg] at this
    exact this

/-- C1.  Determinism: the stepping loop stops at the first `Completed` tick,
and that tick index is unique, so for a fixed configuration and fixed seed two
independent complete runs produce identical frame sequences — the same length
and the same recorded positions, velocities, health values, roles, target ids
and asset states at every frame. -/
theorem claim1_determinism (cfg : Config) (seed n1 n2 : ℕ)
    (h1 : CompletesAt cfg seed n1) (h2 : CompletesAt cfg seed n2) :
    n1 = n2 ∧
    (runState cfg seed n1).frames.length = (runState cfg seed n2).frames.length ∧
    (runState cfg seed n1).frames = (runState cfg seed n2).frames ∧
    ∀ k : ℕ, (runState cfg seed n1).frames[k]? = (runState cfg seed n2).frames[k]? := by
  have hn : n1 = n2 := by
    rcases lt_trichotomy n1 n2 with h | h | h
    · exact absurd h1.1 (h2.2 n1 h)
    · exact h
    · exact absurd h2.1 (h1.2 n2 h)
  subst hn
  exact ⟨rfl, rfl, rfl, fun _ => rfl⟩

theorem claim1_witness :
    1 = 1 ∧
    (runState cfgZ 0 1).frames.length = (runState cfgZ 0 1).frames.length ∧
    (runState cfgZ 0 1).frames = (runState cfgZ 0 1).frames ∧
    ∀ k : ℕ, (runState cfgZ 0 1).frames[k]? = (runState cfgZ 0 1).frames[k]? := by
  have h : CompletesAt cfgZ 0 1 := by
    refine ⟨by decide, ?_⟩
    intro m hm
    interval_cases m
    decide
  exact claim1_determinism cfgZ 0 1 1 h h

/-- C6.  Termination: for every valid configuration and every seed, the run
is `Completed` after at most `max_time / dt` ticks (`maxTicks`, which equals
`max_time / dt` for the fixed timestep `dt = 0.1 s`). -/
theorem claim6_termination (cfg : Config) (seed n : ℕ)
    (hv : validConfig cfg = true) (hn : maxTicks cfg ≤ n) :
    (runState cfg seed n).status = .completed ∧
    (maxTicks cfg : ℚ) * dtQ = (cfg.max_time : ℚ) := by
  have hmt : 0 < cfg.max_time := by
    simp only [validConfig, Bool.and_eq_true, decide_eq_true_eq] at hv
    exact hv.1.1.2
  constructor
  · rcases hs : (runState cfg seed n).status with _ | _ | _
    · obtain ⟨_, hlt⟩ := runStateRun cfg seed (by simp [maxTicks]; omega) n hs
      omega
    · rfl
    · exact absurd hs (runStateNotFailed cfg seed n)
  · simp only [maxTicks, dtQ]
    push_cast
    ring

theorem claim6_witness :
    (runState cfgA 0 10).status = .completed ∧
    (maxTicks cfgA : ℚ) * dtQ = (cfgA.max_time : ℚ) :=
  claim6_termination cfgA 0 10 (by decide) (by decide)

/-- C5.  Tick phase order: a running tick is exactly the composition, in
order, of the seven phases — roles, assignments, velocities under the
configured navigation strategy, position integration (`pos += v * dt`: the
stored velocity is the per-tick displacement), combat resolution, termination
evaluation (`Completed` exactly when all enemies, all friendlies or all
assets are destroyed or elapsed time reaches `max_time`), and optional frame
recording — each phase a function of the state left by the previous ones
only; a non-running simulation is left untouched. -/
theorem claim5_phaseOrder (s : SimState) :
    (s.status = .running →
      step s =
        recordPhase (terminatePhase (combatPhase (integratePhase
          (velocityPhase (assignPhase (rolePhase s))))))) ∧
    (s.status ≠ .running → step s = s) ∧
    (∀ t : SimState, ((terminatePhase t).status = .completed ↔
      (allAgentsDead t.enemies || allAgentsDead t.friendlies || allAssetsDead t.assets
        || decide (maxTicks t.cfg ≤ t.tick + 1)) = true)) ∧
    (∀ t : SimState, (integratePhase t).friendlies =
      t.friendlies.map (fun a => if a.aliveB then { a with pos := a.pos.add a.vel } else a)) ∧
    (∀ t : SimState, (recordPhase t).tick = t.tick + 1) := by
  refine ⟨stepDecomp s, stepStuck s, ?_, fun _ => rfl, fun _ => rfl⟩
  intro t
  simp only [terminatePhase]
  split <;> rename_i hc
  · simpa using hc
  · simpa using hc

theorem claim5_witness :
    step (initSim cfgA 0) =
      recordPhase (terminatePhase (combatPhase (integratePhase
        (velocityPhase (assignPhase (rolePhase (initSim cfgA 0))))))) :=
  (claim5_phaseOrder (initSim cfgA 0)).1 rfl

/-- C8.  Fail-fast validation: an invalid configuration (non-positive
friendly or enemy count, non-positive range/speed/time, an unknown navigation
strategy, or an empty asset list) makes `startSim` fail with a descriptive
error and produce no simulation state; in particular `friendly_count = 0`
fails; a valid configuration yields the allocated initial state before any
tick runs; and stepping never surfaces a `failed` status afterwards. -/
theorem claim8_startValidation (cfg : Config) (seed : ℕ) :
    (validConfig cfg = false → ∃ msg, startSim cfg seed = .error msg ∧ msg ≠ "") ∧
    (cfg.friendly_count = 0 →
      startSim cfg seed = .error "friendly_count must be positive") ∧
    (validConfig cfg = true → startSim cfg seed = .ok (initSim cfg seed)) ∧
    (∀ s : SimState, s.status ≠ .failed → (step s).status ≠ .failed) := by
  refine ⟨?_, ?_, ?_, fun s h => stepStatusNotFailed s h⟩
  · intro hv
    unfold startSim
    split
    · exact ⟨_, rfl, by simp⟩
    · split
      · exact ⟨_, rfl, by simp⟩
      · split
        · exact ⟨_, rfl, by simp⟩
        · split
          · exact ⟨_, rfl, by simp⟩
          · split
            · exact ⟨_, rfl, by simp⟩
            · split
              · exact ⟨_, rfl, by simp⟩
              · split
                · exact ⟨_, rfl, by simp⟩
                · split
                  · exact ⟨_, rfl, by simp⟩
                  · rename_i h1 h2 h3 h4 h5 h6 h7 h8
                    simp only [Bool.not_eq_true', Bool.not_eq_false,
                      Bool.not_eq_true] at h1 h2 h3 h4 h5 h6 h7 h8
                    simp [validConfig, h1, h2, h3, h4, h5, h6, h7, h8] at hv
  · intro h0
    simp [startSim, h0]
  · intro hv
    simp only [validConfig, Bool.and_eq_true, decide_eq_true_eq] at hv
    obtain ⟨⟨⟨⟨⟨⟨⟨h1, h2⟩, h3⟩, h4⟩, h5⟩, h6⟩, h7⟩, h8⟩ := hv
    rw [Bool.not_eq_true', List.isEmpty_eq_false] at h8
    simp [startSim, h1, h2, h3, h4, h5, h6, h7, h8]

theorem claim8_witness :
    startSim cfgBad 0 = .error "friendly_count must be positive" :=
  (claim8_startValidation cfgBad 0).2.1 rfl

/-- C9 counterexample.  A friendly at 160 HP is passed the fraction
`160 / 150 > 1`, but `createHealthBar` clamps the drawn fill to 1, so the
unit is not drawn with a fraction greater than 1 — refuting the claim's final
clause at a concrete input. -/
theorem claim9_cex :
    friendlyBarArg 160 > 1 ∧ ¬ createHealthBarFill (friendlyBarArg 160) > 1 := by
  constructor
  · norm_num [friendlyBarArg]
  · simp only [createHealthBarFill, friendlyBarArg, not_lt]
    exact le_trans (max_le (by norm_num) (min_le_left _ _)) (by norm_num)

/-- C9 (amended).  The client normalises health bars by fixed constants
independent of the scenario configuration — friendly health is divided by
150, enemy health by 85 and asset health by 100 — so an enemy at the
documented full health of 80 is drawn with fill fraction `80 / 85`, strictly
less than full; a unit whose health exceeds its constant is passed a fraction
greater than 1, but the drawn fill is clamped to exactly 1 (a full bar), never
greater. -/
theorem claim9_healthBars :
    (∀ h : ℚ, friendlyBarArg h = h / 150) ∧
    (∀ h : ℚ, enemyBarArg h = h / 85) ∧
    (∀ v : ℚ, assetBarArg (some v) = v / 100) ∧
    enemyBarArg 80 = 80 / 85 ∧
    createHealthBarFill (enemyBarArg 80) = 80 / 85 ∧
    (80 : ℚ) / 85 < 1 ∧
    (∀ h : ℚ, 85 < h → enemyBarArg h > 1 ∧ createHealthBarFill (enemyBarArg h) = 1) ∧
    (∀ h : ℚ, 150 < h → friendlyBarArg h > 1 ∧ createHealthBarFill (friendlyBarArg h) = 1) := by
  refine ⟨fun _ => rfl, fun _ => rfl, fun _ => rfl, rfl, ?_, by norm_num, ?_, ?_⟩
  · rw [createHealthBarFill, enemyBarArg]
    rw [min_eq_right (by norm_num), max_eq_right (by norm_num)]
  · intro h hh
    have h1 : (1 : ℚ) < h / 85 := by rw [lt_div_iff₀] <;> linarith
    refine ⟨h1, ?_⟩
    rw [createHealthBarFill, enemyBarArg, min_eq_left h1.le, max_eq_right (by norm_num)]
  · intro h hh
    have h1 : (1 : ℚ) < h / 150 := by rw [lt_div_iff₀] <;> linarith
    refine ⟨h1, ?_⟩
    rw [createHealthBarFill, friendlyBarArg, min_eq_left h1.le, max_eq_right (by norm_num)]

theorem claim9_witness :
    enemyBarArg 170 > 1 ∧ createHealthBarFill (enemyBarArg 170) = 1 :=
  claim9_healthBars.2.2.2.2.2.2.1 170 (by norm_num)

/-- C10.  `sanitizeNumber` returns a finite number whenever the fallback is
finite — the value itself when it is a finite number, the parsed value for a
non-empty string parsing to a finite number, and the fallback otherwise (so
invalid input is silently replaced, never rejected) — and consequently every
numeric field of the scenario payload built by `prepareScenarioPayload`
(counts, ratio, times, speeds, ranges, asset coordinates and values) is
finite regardless of what the user typed. -/
theorem claim10_sanitize :
    (∀ (v : JSValue) (fb : JSNum), fb.isFinite = true →
      (sanitizeNumber v fb).isFinite = true) ∧
    (∀ (q : ℚ) (fb : JSNum), sanitizeNumber (.num (.fin q)) fb = .fin q) ∧
    (∀ (q : ℚ) (fb : JSNum), sanitizeNumber (.str true (.fin q)) fb = .fin q) ∧
    (∀ fb : JSNum, sanitizeNumber .other fb = fb) ∧
    (∀ fb : JSNum, sanitizeNumber (.num .nan) fb = fb) ∧
    (∀ (b : Bool) (fb : JSNum), sanitizeNumber (.str b .nan) fb = fb) ∧
    (∀ r : RawScenario, ∀ n ∈ prepareScenarioNumbers r, n.isFinite = true) := by
  have hfin : ∀ (v : JSValue) (q : ℚ), (sanitizeNumber v (.fin q)).isFinite = true := by
    intro v q
    rcases v with n | ⟨b, p⟩ | _
    · rcases n with _ | _ | _ | _ <;> rfl
    · rcases b with _ | _ <;> rcases p with _ | _ | _ | _ <;> rfl
    · rfl
  refine ⟨?_, fun _ _ => rfl, fun _ _ => rfl, fun _ => rfl, fun _ => rfl,
    fun b _ => by rcases b with _ | _ <;> rfl, ?_⟩
  · intro v fb hfb
    rcases fb with q | _ | _ | _
    · exact hfin v q
    all_goals simp [JSNum.isFinite] at hfb
  · intro r n hn
    simp only [prepareScenarioNumbers, List.mem_append, List.mem_cons,
      List.not_mem_nil, or_false, List.mem_flatten, List.mem_map] at hn
    rcases hn with hn | ⟨l, ⟨p, _, hl⟩, hnl⟩
    · rcases hn with h | h | h | h | h | h | h <;> (subst h; exact hfin _ _)
    · subst hl
      simp only [List.mem_cons, List.not_mem_nil, or_false] at hnl
      rcases hnl with h | h | h | h <;> (subst h; exact hfin _ _)

theorem claim10_witness :
    (sanitizeNumber .other (.fin 5)).isFinite = true :=
  claim10_sanitize.1 .other (.fin 5) rfl

theorem stepNoEnemies (s : SimState) (he : s.enemies = []) (hr : s.status = .running) :
    (step s).status = .completed ∧ (step s).tick = s.tick + 1 ∧
    (step s).combatEvents = s.combatEvents ∧ (step s).enemies = [] ∧
    (step s).assets = s.assets := by
  rw [stepDecomp s hr]
  simp only [rolePhase, assignPhase, velocityPhase, integratePhase, combatPhase,
    terminatePhase, recordPhase, allAgentsDead, he, List.map_nil, List.sum_nil,
    List.all_nil, List.countP_nil, Nat.sub_zero, List.map_const', List.sum_replicate,
    smul_eq_mul, Nat.mul_zero, Nat.add_zero, Bool.true_or, if_true]
  exact ⟨trivial, trivial, trivial, trivial, List.map_id'' (fun g => rfl) s.assets⟩

/-- C7.  Zero-enemy scenario: for every configuration with `enemy_count = 0`
(and any seed), the simulation completes on tick 1, the reported statistics
have `missionSuccess = true`, and no combat event — no hit, no damage, no
breach — occurs during the run. -/
theorem claim7_zeroEnemies (cfg : Config) (seed : ℕ) (h : cfg.enemy_count = 0) :
    (runState cfg seed 1).status = .completed ∧
    (runState cfg seed 1).tick = 1 ∧
    (statistics (runState cfg seed 1)).missionSuccess = true ∧
    (runState cfg seed 1).combatEvents = 0 := by
  have h0 : runState cfg seed 1 = step (initSim cfg seed) := by
    simp [runState]
  have he : (initSim cfg seed).enemies = [] := by simp [initSim, h]
  have hr : (initSim cfg seed).status = .running := rfl
  obtain ⟨h1, h2, h3, h4, h5⟩ := stepNoEnemies _ he hr
  rw [h0]
  refine ⟨h1, by rw [h2]; rfl, ?_, by rw [h3]; rfl⟩
  simp only [statistics, h4, h5]
  simp [initSim, mkAsset, List.all_eq_true]
  intro x i a _ hx
  rw [← hx]
  norm_num

theorem claim7_witness :
    (runState cfgZ 0 1).status = .completed ∧
    (runState cfgZ 0 1).tick = 1 ∧
    (statistics (runState cfgZ 0 1)).missionSuccess = true ∧
    (runState cfgZ 0 1).combatEvents = 0 :=
  claim7_zeroEnemies cfgZ 0 rfl

theorem roleFriendlies (t : SimState) :
    (rolePhase t).friendlies = t.friendlies.map (updateRole t) := rfl

theorem assignFriendlies (t : SimState) :
    (assignPhase t).friendlies = t.friendlies.map (fun a =>
      if a.aliveB then { a with target := chooseTarget t a } else a) := rfl

theorem velocityFriendlies (t : SimState) :
    (velocityPhase t).friendlies = t.friendlies.map (fun a =>
      if a.aliveB then
        { a with vel := blendVel a.vel (clampSpeed a.maxSpeed (desiredVel t a)) }
      else a) := rfl

theorem integrateFriendlies (t : SimState) :
    (integratePhase t).friendlies = t.friendlies.map (fun a =>
      if a.aliveB then { a with pos := a.pos.add a.vel } else a) := rfl

theorem combatFriendlies (t : SimState) :
    (combatPhase t).friendlies = t.friendlies.map (fun d =>
      { d with health := d.health - (t.enemies.map (fun e => pairDamageEF t e d)).sum }) := rfl

theorem terminateFriendlies (t : SimState) :
    (terminatePhase t).friendlies = t.friendlies := rfl

theorem recordFriendlies (t : SimState) :
    (recordPhase t).friendlies = t.friendlies := rfl

theorem roleEnemies (t : SimState) : (rolePhase t).enemies = t.enemies := rfl

theorem assignEnemies (t : SimState) : (assignPhase t).enemies = t.enemies := rfl

theorem velocityEnemies (t : SimState) :
    (velocityPhase t).enemies = t.enemies.map (fun e =>
      if e.aliveB then { e with vel := enemyVel t e } else e) := rfl

theorem integrateEnemies (t : SimState) :
    (integratePhase t).enemies = t.enemies.map (fun e =>
      if e.aliveB then { e with pos := e.pos.add e.vel } else e) := rfl

theorem combatEnemies (t : SimState) :
    (combatPhase t).enemies = t.enemies.map (fun e =>
      { e with health := e.health - (t.friendlies.map (fun d => pairDamageFE t d e)).sum }) := rfl

theorem terminateEnemies (t : SimState) : (terminatePhase t).enemies = t.enemies := rfl

theorem recordEnemies (t : SimState) : (recordPhase t).enemies = t.enemies := rfl

theorem roleAssets (t : SimState) : (rolePhase t).assets = t.assets := rfl

theorem assignAssets (t : SimState) : (assignPhase t).assets = t.assets := rfl

theorem velocityAssets (t : SimState) : (velocityPhase t).assets = t.assets := rfl

theorem integrateAssets (t : SimState) : (integratePhase t).assets = t.assets := rfl

theorem combatAssets (t : SimState) :
    (combatPhase t).assets = t.assets.map (fun g =>
      { g with health := g.health - (t.enemies.map (fun e => breachDamage e g)).sum }) := rfl

theorem terminateAssets (t : SimState) : (terminatePhase t).assets = t.assets := rfl

theorem recordAssets (t : SimState) : (recordPhase t).assets = t.assets := rfl

theorem roleAt (t : SimState) (i : ℕ) :
    ∃ f : Agent → Agent,
      (∀ x : Agent, (f x).health ≤ x.health ∧ (f x).maxHealth = x.maxHealth) ∧
      (rolePhase t).friendlies[i]? = (t.friendlies[i]?).map f := by
  refine ⟨updateRole t, fun x => ?_, by rw [roleFriendlies, List.getElem?_map]⟩
  unfold updateRole
  split <;> exact ⟨le_refl _, rfl⟩

theorem assignAt (t : SimState) (i : ℕ) :
    ∃ f : Agent → Agent,
      (∀ x : Agent, (f x).health ≤ x.health ∧ (f x).maxHealth = x.maxHealth) ∧
      (assignPhase t).friendlies[i]? = (t.friendlies[i]?).map f := by
  refine ⟨_, fun x => ?_, by rw [assignFriendlies, List.getElem?_map]⟩
  dsimp only
  split <;> exact ⟨le_refl _, rfl⟩

theorem velocityAtF (t : SimState) (i : ℕ) :
    ∃ f : Agent → Agent,
      (∀ x : Agent, (f x).health ≤ x.health ∧ (f x).maxHealth = x.maxHealth) ∧
      (velocityPhase t).friendlies[i]? = (t.friendlies[i]?).map f := by
  refine ⟨_, fun x => ?_, by rw [velocityFriendlies, List.getElem?_map]⟩
  dsimp only
  split <;> exact ⟨le_refl _, rfl⟩

theorem integrateAtF (t : SimState) (i : ℕ) :
    ∃ f : Agent → Agent,
      (∀ x : Agent, (f x).health ≤ x.health ∧ (f x).maxHealth = x.maxHealth) ∧
      (integratePhase t).friendlies[i]? = (t.friendlies[i]?).map f := by
  refine ⟨_, fun x => ?_, by rw [integrateFriendlies, List.getElem?_map]⟩
  dsimp only
  split <;> exact ⟨le_refl _, rfl⟩

theorem combatAtF (t : SimState) (i : ℕ) :
    ∃ f : Agent → Agent,
      (∀ x : Agent, (f x).health ≤ x.health ∧ (f x).maxHealth = x.maxHealth) ∧
      (combatPhase t).friendlies[i]? = (t.friendlies[i]?).map f := by
  refine ⟨_, fun x => ?_, by rw [combatFriendlies, List.getElem?_map]⟩
  exact ⟨Nat.sub_le _ _, rfl⟩

theorem velocityAtE (t : SimState) (i : ℕ) :
    ∃ f : Agent → Agent,
      (∀ x : Agent, (f x).health ≤ x.health ∧ (f x).maxHealth = x.maxHealth) ∧
      (velocityPhase t).enemies[i]? = (t.enemies[i]?).map f := by
  refine ⟨_, fun x => ?_, by rw [velocityEnemies, List.getElem?_map]⟩
  dsimp only
  split <;> exact ⟨le_refl _, rfl⟩

theorem integrateAtE (t : SimState) (i : ℕ) :
    ∃ f : Agent → Agent,
      (∀ x : Agent, (f x).health ≤ x.health ∧ (f x).maxHealth = x.maxHealth) ∧
      (integratePhase t).enemies[i]? = (t.enemies[i]?).map f := by
  refine ⟨_, fun x => ?_, by rw [integrateEnemies, List.getElem?_map]⟩
  dsimp only
  split <;> exact ⟨le_refl _, rfl⟩

theorem combatAtE (t : SimState) (i : ℕ) :
    ∃ f : Agent → Agent,
      (∀ x : Agent, (f x).health ≤ x.health ∧ (f x).maxHealth = x.maxHealth) ∧
      (combatPhase t).enemies[i]? = (t.enemies[i]?).map f := by
  refine ⟨_, fun x => ?_, by rw [combatEnemies, List.getElem?_map]⟩
  exact ⟨Nat.sub_le _ _, rfl⟩

theorem stepHealthF (s : SimState) (i : ℕ) (a b : Agent)
    (ha : s.friendlies[i]? = some a) (hb : (step s).friendlies[i]? = some b) :
    b.health ≤ a.health ∧ b.maxHealth = a.maxHealth := by
  by_cases hr : s.status = .running
  · rw [stepDecomp s hr, recordFriendlies, terminateFriendlies] at hb
    obtain ⟨f5, hf5, e5⟩ := combatAtF (integratePhase (velocityPhase (assignPhase (rolePhase s)))) i
    obtain ⟨f4, hf4, e4⟩ := integrateAtF (velocityPhase (assignPhase (rolePhase s))) i
    obtain ⟨f3, hf3, e3⟩ := velocityAtF (assignPhase (rolePhase s)) i
    obtain ⟨f2, hf2, e2⟩ := assignAt (rolePhase s) i
    obtain ⟨f1, hf1, e1⟩ := roleAt s i
    rw [e5, e4, e3, e2, e1, ha] at hb
    simp only [Option.map_some'] at hb
    cases hb
    constructor
    · exact le_trans (hf5 _).1 (le_trans (hf4 _).1 (le_trans (hf3 _).1
        (le_trans (hf2 _).1 (hf1 _).1)))
    · rw [(hf5 _).2, (hf4 _).2, (hf3 _).2, (hf2 _).2, (hf1 _).2]
  · rw [stepStuck s hr, ha] at hb
    cases hb
    exact ⟨le_refl _, rfl⟩

theorem stepHealthE (s : SimState) (i : ℕ) (a b : Agent)
    (ha : s.enemies[i]? = some a) (hb : (step s).enemies[i]? = some b) :
    b.health ≤ a.health ∧ b.maxHealth = a.maxHealth := by
  by_cases hr : s.status = .running
  · rw [stepDecomp s hr, recordEnemies, terminateEnemies] at hb
    obtain ⟨f5, hf5, e5⟩ := combatAtE (integratePhase (velocityPhase (assignPhase (rolePhase s)))) i
    obtain ⟨f4, hf4, e4⟩ := integrateAtE (velocityPhase (assignPhase (rolePhase s))) i
    obtain ⟨f3, hf3, e3⟩ := velocityAtE (assignPhase (rolePhase s)) i
    rw [e5, e4, e3, assignEnemies, roleEnemies, ha] at hb
    simp only [Option.map_some'] at hb
    cases hb
    constructor
    · exact le_trans (hf5 _).1 (le_trans (hf4 _).1 (hf3 _).1)
    · rw [(hf5 _).2, (hf4 _).2, (hf3 _).2]
  · rw [stepStuck s hr, ha] at hb
    cases hb
    exact ⟨le_refl _, rfl⟩

theorem stepHealthA (s : SimState) (i : ℕ) (a b : Asset)
    (ha : s.assets[i]? = some a) (hb : (step s).assets[i]? = some b) :
    b.health ≤ a.health := by
  by_cases hr : s.status = .running
  · rw [stepDecomp s hr, recordAssets, terminateAssets, combatAssets,
      integrateAssets, velocityAssets, assignAssets, roleAssets,
      List.getElem?_map, ha, Option.map_some'] at hb
    cases hb
    exact Nat.sub_le _ _
  · rw [stepStuck s hr, ha] at hb
    cases hb
    exact le_refl _

theorem stepLenF (s : SimState) : (step s).friendlies.length = s.friendlies.length := by
  by_cases hr : s.status = .running
  · rw [stepDecomp s hr, recordFriendlies, terminateFriendlies, combatFriendlies,
      integrateFriendlies, velocityFriendlies, assignFriendlies, roleFriendlies]
    simp [List.length_map]
  · rw [stepStuck s hr]

theorem stepLenE (s : SimState) : (step s).enemies.length = s.enemies.length := by
  by_cases hr : s.status = .running
  · rw [stepDecomp s hr, recordEnemies, terminateEnemies, combatEnemies,
      integrateEnemies, velocityEnemies, assignEnemies, roleEnemies]
    simp [List.length_map]
  · rw [stepStuck s hr]

theorem stepLenA (s : SimState) : (step s).assets.length = s.assets.length := by
  by_cases hr : s.status = .running
  · rw [stepDecomp s hr, recordAssets, terminateAssets, combatAssets,
      integrateAssets, velocityAssets, assignAssets, roleAssets]
    simp [List.length_map]
  · rw [stepStuck s hr]

/-- C4.  Health monotonicity: one tick never removes an agent or asset from
the roster, never increases any health, and keeps every health in `[0, max]`
(the lower bound is the `ℕ` embedding of the clamp at zero); consequently
health is non-increasing tick over tick along every run. -/
theorem claim4_healthMonotone (s : SimState) (hok : HealthOK s) :
    ((step s).friendlies.length = s.friendlies.length ∧
     (step s).enemies.length = s.enemies.length ∧
     (step s).assets.length = s.assets.length) ∧
    (∀ (i : ℕ) (a b : Agent), s.friendlies[i]? = some a → (step s).friendlies[i]? = some b →
      b.health ≤ a.health ∧ 0 ≤ b.health ∧ b.health ≤ b.maxHealth) ∧
    (∀ (i : ℕ) (a b : Agent), s.enemies[i]? = some a → (step s).enemies[i]? = some b →
      b.health ≤ a.health ∧ 0 ≤ b.health ∧ b.health ≤ b.maxHealth) ∧
    (∀ (i : ℕ) (a b : Asset), s.assets[i]? = some a → (step s).assets[i]? = some b →
      b.health ≤ a.health ∧ 0 ≤ b.health ∧ b.health ≤ 100) ∧
    HealthOK (step s) := by
  have keyF : ∀ (i : ℕ) (a b : Agent), s.friendlies[i]? = some a →
      (step s).friendlies[i]? = some b →
      b.health ≤ a.health ∧ 0 ≤ b.health ∧ b.health ≤ b.maxHealth := by
    intro i a b ha hb
    obtain ⟨h1, h2⟩ := stepHealthF s i a b ha hb
    exact ⟨h1, Nat.zero_le _, by rw [h2]; exact le_trans h1 (hok.1 a (List.getElem?_mem ha))⟩
  have keyE : ∀ (i : ℕ) (a b : Agent), s.enemies[i]? = some a →
      (step s).enemies[i]? = some b →
      b.health ≤ a.health ∧ 0 ≤ b.health ∧ b.health ≤ b.maxHealth := by
    intro i a b ha hb
    obtain ⟨h1, h2⟩ := stepHealthE s i a b ha hb
    exact ⟨h1, Nat.zero_le _, by rw [h2]; exact le_trans h1 (hok.2.1 a (List.getElem?_mem ha))⟩
  have keyA : ∀ (i : ℕ) (a b : Asset), s.assets[i]? = some a →
      (step s).assets[i]? = some b →
      b.health ≤ a.health ∧ 0 ≤ b.health ∧ b.health ≤ 100 := by
    intro i a b ha hb
    have h1 := stepHealthA s i a b ha hb
    exact ⟨h1, Nat.zero_le _, le_trans h1 (hok.2.2 a (List.getElem?_mem ha))⟩
  refine ⟨⟨stepLenF s, stepLenE s, stepLenA s⟩, keyF, keyE, keyA, ?_, ?_, ?_⟩
  · intro b hbmem
    obtain ⟨i, hi⟩ := List.getElem?_of_mem hbmem
    have hlt : i < s.friendlies.length := by
      have := List.getElem?_eq_some.mp hi
      rw [← stepLenF s]
      exact this.1
    exact (keyF i _ b (List.getElem?_eq_getElem hlt) hi).2.2
  · intro b hbmem
    obtain ⟨i, hi⟩ := List.getElem?_of_mem hbmem
    have hlt : i < s.enemies.length := by
      have := List.getElem?_eq_some.mp hi
      rw [← stepLenE s]
      exact this.1
    exact (keyE i _ b (List.getElem?_eq_getElem hlt) hi).2.2
  · intro b hbmem
    obtain ⟨i, hi⟩ := List.getElem?_of_mem hbmem
    have hlt : i < s.assets.length := by
      have := List.getElem?_eq_some.mp hi
      rw [← stepLenA s]
      exact this.1
    exact (keyA i _ b (List.getElem?_eq_getElem hlt) hi).2.2

theorem claim4_witness : HealthOK (step (initSim cfgA 0)) :=
  (claim4_healthMonotone (initSim cfgA 0) (by unfold HealthOK; decide)).2.2.2.2

theorem scoreGtBIff (h1 m1 h2 m2 : ℕ) (hm1 : 0 < m1) (hm2 : 0 < m2) :
    scoreGtB h1 m1 h2 m2 = true ↔
      (h2 : ℚ) + 10000 / (m2 : ℚ) < (h1 : ℚ) + 10000 / (m1 : ℚ) := by
  have hq1 : (0 : ℚ) < (m1 : ℚ) := by exact_mod_cast hm1
  have hq2 : (0 : ℚ) < (m2 : ℚ) := by exact_mod_cast hm2
  have e1 : ((h1 : ℚ) + 10000 / (m1 : ℚ)) * ((m1 : ℚ) * m2) =
      (h1 : ℚ) * ((m1 : ℚ) * m2) + 10000 * m2 := by
    field_simp
    ring
  have e2 : ((h2 : ℚ) + 10000 / (m2 : ℚ)) * ((m1 : ℚ) * m2) =
      (h2 : ℚ) * ((m1 : ℚ) * m2) + 10000 * m1 := by
    field_simp
    ring
  have key : ((h2 : ℚ) + 10000 / (m2 : ℚ) < (h1 : ℚ) + 10000 / (m1 : ℚ)) ↔
      ((h2 : ℚ) * ((m1 : ℚ) * m2) + 10000 * m1 < (h1 : ℚ) * ((m1 : ℚ) * m2) + 10000 * m2) := by
    rw [← mul_lt_mul_right (mul_pos hq1 hq2), e1, e2]
  rw [scoreGtB, decide_eq_true_iff, key]
  constructor <;> intro h <;> exact_mod_cast h

theorem scoreEqBIff (h1 m1 h2 m2 : ℕ) (hm1 : 0 < m1) (hm2 : 0 < m2) :
    scoreEqB h1 m1 h2 m2 = true ↔
      (h1 : ℚ) + 10000 / (m1 : ℚ) = (h2 : ℚ) + 10000 / (m2 : ℚ) := by
  have hq1 : (0 : ℚ) < (m1 : ℚ) := by exact_mod_cast hm1
  have hq2 : (0 : ℚ) < (m2 : ℚ) := by exact_mod_cast hm2
  have e1 : ((h1 : ℚ) + 10000 / (m1 : ℚ)) * ((m1 : ℚ) * m2) =
      (h1 : ℚ) * ((m1 : ℚ) * m2) + 10000 * m2 := by
    field_simp
    ring
  have e2 : ((h2 : ℚ) + 10000 / (m2 : ℚ)) * ((m1 : ℚ) * m2) =
      (h2 : ℚ) * ((m1 : ℚ) * m2) + 10000 * m1 := by
    field_simp
    ring
  have key : ((h1 : ℚ) + 10000 / (m1 : ℚ) = (h2 : ℚ) + 10000 / (m2 : ℚ)) ↔
      ((h1 : ℚ) * ((m1 : ℚ) * m2) + 10000 * m2 = (h2 : ℚ) * ((m1 : ℚ) * m2) + 10000 * m1) := by
    constructor
    · intro h
      rw [← e1, ← e2, h]
    · intro h
      have := mul_right_cancel₀ (ne_of_gt (mul_pos hq1 hq2)) (e1.trans (h.trans e2.symm))
      exact this
  rw [scoreEqB, decide_eq_true_iff, key]
  constructor <;> intro h <;> exact_mod_cast h

theorem effDenEq (ddm : ℕ) :
    (1000 : ℚ) / max ((ddm : ℚ) / 10) 1 = 10000 / (effDen ddm : ℚ) := by
  unfold effDen
  rcases le_total ddm 10 with h | h
  · rw [max_eq_right (show ((ddm : ℚ) / 10) ≤ 1 by
      rw [div_le_one] <;> [exact_mod_cast h; norm_num])]
    rw [Nat.max_eq_right h]
    norm_num
  · have h10 : (10 : ℚ) ≤ (ddm : ℚ) := by exact_mod_cast h
    have hpos : (0 : ℚ) < (ddm : ℚ) := by linarith
    rw [max_eq_left (show (1 : ℚ) ≤ (ddm : ℚ) / 10 by rw [le_div_iff₀] <;> linarith)]
    rw [Nat.max_eq_left h]
    rw [div_div_eq_mul_div]
    norm_num

theorem faScoreQEq (epos : Vec3) (eid : ℕ) (d : FrameAgent) :
    faScoreQ epos eid d =
      (hashScore d.id eid : ℚ) + 10000 / (effDen (distDm d.pos epos) : ℚ) := by
  unfold faScoreQ scoreQ
  rw [effDenEq]

theorem effDenPos (ddm : ℕ) : 0 < effDen ddm := by
  unfold effDen
  omega

theorem faBeatsIff (epos : Vec3) (eid : ℕ) (a b : FrameAgent) :
    faBeats epos eid a b = true ↔
      (faScoreQ epos eid b < faScoreQ epos eid a ∨
        (faScoreQ epos eid a = faScoreQ epos eid b ∧ a.id < b.id)) := by
  unfold faBeats
  simp only [Bool.or_eq_true, Bool.and_eq_true, decide_eq_true_eq]
  rw [scoreGtBIff _ _ _ _ (effDenPos _) (effDenPos _),
    scoreEqBIff _ _ _ _ (effDenPos _) (effDenPos _),
    ← faScoreQEq, ← faScoreQEq]

theorem faBeatsNotSelf (epos : Vec3) (eid : ℕ) (a b : FrameAgent)
    (hab : faBeats epos eid a b = true) (hba : faBeats epos eid b a = true) : False := by
  rw [faBeatsIff] at hab hba
  rcases hab with h1 | ⟨h1, h1i⟩ <;> rcases hba with h2 | ⟨h2, h2i⟩
  · exact lt_asymm h1 h2
  · rw [h2] at h1
    exact lt_irrefl _ h1
  · rw [h1] at h2
    exact lt_irrefl _ h2
  · omega

theorem faBeatsTotal (epos : Vec3) (eid : ℕ) (a b : FrameAgent)
    (hne : a.id ≠ b.id) : faBeats epos eid a b = true ∨ faBeats epos eid b a = true := by
  rw [faBeatsIff, faBeatsIff]
  rcases lt_trichotomy (faScoreQ epos eid a) (faScoreQ epos eid b) with h | h | h
  · exact Or.inr (Or.inl h)
  · rcases Nat.lt_or_ge a.id b.id with hi | hi
    · exact Or.inl (Or.inr ⟨h, hi⟩)
    · exact Or.inr (Or.inr ⟨h.symm, by omega⟩)
  · exact Or.inl (Or.inl h)

theorem faBeatsTrans2 (epos : Vec3) (eid : ℕ) (a b c : FrameAgent)
    (hab : faBeats epos eid a b = true) (hbc : faBeats epos eid b c = true) :
    faBeats epos eid a c = true := by
  rw [faBeatsIff] at hab hbc ⊢
  rcases hab with h1 | ⟨h1, h1i⟩ <;> rcases hbc with h2 | ⟨h2, h2i⟩
  · exact Or.inl (lt_trans h2 h1)
  · exact Or.inl (by rw [← h2]; exact h1)
  · exact Or.inl (by rw [h1]; exact h2)
  · exact Or.inr ⟨h1.trans h2, lt_trans h1i h2i⟩

theorem ownerFoldSpec (epos : Vec3) (eid : ℕ) (l : List FrameAgent) :
    ∀ b : FrameAgent, ((b :: l).map FrameAgent.id).Nodup →
      ∃ r, l.foldl (pickOwner epos eid) (some b) = some r ∧
        r ∈ b :: l ∧
        ∀ x ∈ b :: l, x.id ≠ r.id → faBeats epos eid r x = true := by
  induction l with
  | nil =>
    intro b _
    refine ⟨b, rfl, List.mem_singleton_self b, ?_⟩
    intro x hx hne
    rw [List.mem_singleton] at hx
    subst hx
    exact absurd rfl hne
  | cons d t ih =>
    intro b hnd
    have hcons : ((b :: d :: t).map FrameAgent.id) = b.id :: d.id :: t.map FrameAgent.id := rfl
    rw [hcons] at hnd
    have hbd_ne : b.id ≠ d.id := by
      have := (List.nodup_cons.mp hnd).1
      intro h
      exact this (h ▸ List.mem_cons_self d.id (t.map FrameAgent.id))
    have hfold : (d :: t).foldl (pickOwner epos eid) (some b)
        = t.foldl (pickOwner epos eid) (pickOwner epos eid (some b) d) := rfl
    by_cases hdb : faBeats epos eid d b = true
    · have hpick : pickOwner epos eid (some b) d = some d := by
        simp [pickOwner, hdb]
      have hnd' : ((d :: t).map FrameAgent.id).Nodup := by
        have := (List.nodup_cons.mp hnd).2
        exact this
      obtain ⟨r, hr, hmem, hdom⟩ := ih d hnd'
      refine ⟨r, by rw [hfold, hpick]; exact hr, List.mem_cons_of_mem b hmem, ?_⟩
      intro x hx hne
      rcases List.mem_cons.mp hx with hxb | hxdt
      · subst hxb
        rcases List.mem_cons.mp hmem with hrd | hrt
        · rw [hrd]
          exact hdb
        · have hdid : d.id ≠ r.id := by
            have hd : d.id ∉ t.map FrameAgent.id := (List.nodup_cons.mp hnd').1
            intro h
            exact hd (h ▸ List.mem_map_of_mem FrameAgent.id hrt)
          have hrd2 : faBeats epos eid r d = true :=
            hdom d (List.mem_cons_self d t) hdid
          exact faBeatsTrans2 epos eid r d x hrd2 hdb
      · exact hdom x hxdt hne
    · have hpick : pickOwner epos eid (some b) d = some b := by
        simp [pickOwner, hdb]
      have hbd : faBeats epos eid b d = true := by
        rcases faBeatsTotal epos eid b d hbd_ne with h | h
        · exact h
        · exact absurd h hdb
      have hnd' : ((b :: t).map FrameAgent.id).Nodup := by
        have hsub : List.Sublist (b.id :: t.map FrameAgent.id)
            (b.id :: d.id :: t.map FrameAgent.id) :=
          List.Sublist.cons₂ b.id (List.sublist_cons_self d.id (t.map FrameAgent.id))
        exact List.Nodup.sublist hsub hnd
      obtain ⟨r, hr, hmem, hdom⟩ := ih b hnd'
      have hmem2 : r ∈ b :: d :: t := by
        rcases List.mem_cons.mp hmem with hrb | hrt
        · rw [hrb]
          exact List.mem_cons_self b (d :: t)
        · exact List.mem_cons_of_mem b (List.mem_cons_of_mem d hrt)
      refine ⟨r, by rw [hfold, hpick]; exact hr, hmem2, ?_⟩
      intro x hx hne
      rcases List.mem_cons.mp hx with hxb | hxdt
      · subst hxb
        exact hdom x (List.mem_cons_self x t) hne
      · rcases List.mem_cons.mp hxdt with hxd | hxt
        · subst hxd
          rcases List.mem_cons.mp hmem with hrb | hrt
          · rw [hrb]
            exact hbd
          · have hbid : b.id ≠ r.id := by
              have hb : b.id ∉ t.map FrameAgent.id := (List.nodup_cons.mp hnd').1
              intro h
              exact hb (h ▸ List.mem_map_of_mem FrameAgent.id hrt)
            have hrb2 : faBeats epos eid r b = true :=
              hdom b (List.mem_cons_self b t) hbid
            exact faBeatsTrans2 epos eid r b x hrb2 hbd
        · exact hdom x (List.mem_cons_of_mem b hxt) hne

theorem ownerCoreSpec (fs : List FrameAgent) (epos : Vec3) (eid rdm : ℕ)
    (hnd : (fs.map FrameAgent.id).Nodup)
    (hex : ∃ d ∈ fs, faObserves d epos rdm = true) :
    ∃ r, ownerCore fs epos eid rdm = some r ∧ IsPrimaryOwner fs epos eid rdm r := by
  have hndo : ((fs.filter (fun d => faObserves d epos rdm)).map FrameAgent.id).Nodup :=
    List.Nodup.sublist (List.Sublist.map FrameAgent.id (List.filter_sublist fs)) hnd
  obtain ⟨d0, hd0, hobs0⟩ := hex
  have hd0f : d0 ∈ fs.filter (fun d => faObserves d epos rdm) :=
    List.mem_filter.mpr ⟨hd0, by simpa using hobs0⟩
  unfold ownerCore
  rcases hO : fs.filter (fun d => faObserves d epos rdm) with _ | ⟨b, t⟩
  · rw [hO] at hd0f
    cases hd0f
  · rw [hO] at hndo
    obtain ⟨r, hr, hmem, hdom⟩ := ownerFoldSpec epos eid t b hndo
    have hrO : r ∈ fs.filter (fun d => faObserves d epos rdm) := by
      rw [hO]
      exact hmem
    refine ⟨r, hr, List.mem_of_mem_filter hrO, by simpa using List.of_mem_filter hrO, ?_⟩
    intro x hxf hxo hxne
    have hxO : x ∈ b :: t := by
      rw [← hO]
      exact List.mem_filter.mpr ⟨hxf, by simpa using hxo⟩
    exact hdom x hxO hxne

theorem ownerCoreDominates (fs : List FrameAgent) (epos : Vec3) (eid rdm : ℕ)
    (r : FrameAgent) (hnd : (fs.map FrameAgent.id).Nodup)
    (h : ownerCore fs epos eid rdm = some r) : IsPrimaryOwner fs epos eid rdm r := by
  have hndo : ((fs.filter (fun d => faObserves d epos rdm)).map FrameAgent.id).Nodup :=
    List.Nodup.sublist (List.Sublist.map FrameAgent.id (List.filter_sublist fs)) hnd
  unfold ownerCore at h
  rcases hO : fs.filter (fun d => faObserves d epos rdm) with _ | ⟨b, t⟩
  · rw [hO] at h
    cases h
  · rw [hO] at h hndo
    obtain ⟨r2, hr2, hmem, hdom⟩ := ownerFoldSpec epos eid t b hndo
    have : r2 = r := by
      have h2 : (b :: t).foldl (pickOwner epos eid) none
          = t.foldl (pickOwner epos eid) (some b) := rfl
      rw [h2, hr2] at h
      exact Option.some.inj h
    subst this
    have hr2O : r2 ∈ fs.filter (fun d => faObserves d epos rdm) := by
      rw [hO]
      exact hmem
    refine ⟨List.mem_of_mem_filter hr2O, by simpa using List.of_mem_filter hr2O, ?_⟩
    intro x hxf hxo hxne
    have hxO : x ∈ b :: t := by
      rw [← hO]
      exact List.mem_filter.mpr ⟨hxf, by simpa using hxo⟩
    exact hdom x hxO hxne

theorem ownerUniqueId (fs : List FrameAgent) (epos : Vec3) (eid rdm : ℕ)
    (d1 d2 : FrameAgent) (h1 : IsPrimaryOwner fs epos eid rdm d1)
    (h2 : IsPrimaryOwner fs epos eid rdm d2) : d1.id = d2.id := by
  by_contra hne
  exact faBeatsNotSelf epos eid d1 d2
    (h1.2.2 d2 h2.1 h2.2.1 (fun h => hne h.symm))
    (h2.2.2 d1 h1.1 h1.2.1 hne)

theorem findIdMap (l : List Agent) (e : Agent)
    (hnd : (l.map Agent.id).Nodup) (hmem : e ∈ l) :
    (l.map toFA).find? (fun x => x.id == e.id) = some (toFA e) := by
  induction l with
  | nil => cases hmem
  | cons a t ih =>
    simp only [List.map_cons, List.find?_cons]
    by_cases hid : a.id = e.id
    · have hae : a = e := by
        rcases List.mem_cons.mp hmem with h | h
        · exact h.symm
        · exfalso
          have : a.id ∉ t.map Agent.id := (List.nodup_cons.mp hnd).1
          exact this (hid ▸ List.mem_map_of_mem Agent.id h)
      have htrue : ((toFA a).id == e.id) = true := by
        simp [toFA, hid]
      rw [htrue, hae]
    · have hfalse : ((toFA a).id == e.id) = false := by
        simp [toFA, hid]
      rw [hfalse]
      have hmt : e ∈ t := by
        rcases List.mem_cons.mp hmem with h | h
        · exact absurd h.symm (fun hh => hid (by rw [hh]))
        · exact h
      exact ih (List.nodup_cons.mp hnd).2 hmt

/-- C2.  No-communication consistency: for every enemy observed by at least
one active friendly, there is exactly one primary owner — the active observer
with the maximal Assignment Protocol score, ties to the lower id — the engine
computes exactly that owner (`simOwnerId`, the predicate the quantum strategy
gates on), and the very same owner is re-derived from the recorded frame
alone (`frameOwnerId` over `toFrame`), without re-running the simulation. -/
theorem claim2_ownerConsistency (s : SimState) (e : Agent)
    (hmem : e ∈ s.enemies) (_halive : 0 < e.health)
    (hndF : (s.friendlies.map Agent.id).Nodup)
    (hndE : (s.enemies.map Agent.id).Nodup)
    (hobs : ∃ d ∈ s.friendlies, faObserves (toFA d) e.pos (detectDm s.cfg) = true) :
    (∃ r : FrameAgent,
      simOwnerId s e = some r.id ∧
      IsPrimaryOwner (s.friendlies.map toFA) e.pos e.id (detectDm s.cfg) r ∧
      (∀ x : FrameAgent,
        IsPrimaryOwner (s.friendlies.map toFA) e.pos e.id (detectDm s.cfg) x →
          x.id = r.id)) ∧
    frameOwnerId (toFrame s) (detectDm s.cfg) e.id = simOwnerId s e := by
  have hndFA : ((s.friendlies.map toFA).map FrameAgent.id).Nodup := by
    rw [List.map_map]
    exact hndF
  have hexFA : ∃ d ∈ s.friendlies.map toFA, faObserves d e.pos (detectDm s.cfg) = true := by
    obtain ⟨d, hd, ho⟩ := hobs
    exact ⟨toFA d, List.mem_map_of_mem toFA hd, ho⟩
  obtain ⟨r, hr, hipo⟩ :=
    ownerCoreSpec (s.friendlies.map toFA) e.pos e.id (detectDm s.cfg) hndFA hexFA
  constructor
  · refine ⟨r, ?_, hipo, ?_⟩
    · unfold simOwnerId
      rw [hr]
      rfl
    · intro x hx
      exact ownerUniqueId _ _ _ _ x r hx hipo
  · unfold frameOwnerId simOwnerId
    have hfind : (toFrame s).enemies.find? (fun x => x.id == e.id) = some (toFA e) := by
      have : (toFrame s).enemies = s.enemies.map toFA := rfl
      rw [this]
      exact findIdMap s.enemies e hndE hmem
    rw [hfind]
    rfl

theorem claim2_witness :
    (∃ r : FrameAgent,
      simOwnerId (initSim cfgA 0) (mkEnemy cfgA 0) = some r.id ∧
      IsPrimaryOwner ((initSim cfgA 0).friendlies.map toFA) (mkEnemy cfgA 0).pos
        (mkEnemy cfgA 0).id (detectDm (initSim cfgA 0).cfg) r ∧
      (∀ x : FrameAgent,
        IsPrimaryOwner ((initSim cfgA 0).friendlies.map toFA) (mkEnemy cfgA 0).pos
          (mkEnemy cfgA 0).id (detectDm (initSim cfgA 0).cfg) x →
          x.id = r.id)) ∧
    frameOwnerId (toFrame (initSim cfgA 0)) (detectDm (initSim cfgA 0).cfg)
        (mkEnemy cfgA 0).id
      = simOwnerId (initSim cfgA 0) (mkEnemy cfgA 0) :=
  claim2_ownerConsistency (initSim cfgA 0) (mkEnemy cfgA 0)
    (by decide) (by decide) (by decide) (by decide) (by decide)

/-- C3.  Assignment priority: the score of an (agent, candidate) pair is
exactly `(drone_id * 7919 + enemy_id * 6547) mod 1000 + 1000 / max (d, 1)` —
a deterministic integer hash mod the fixed constant K = 1000 plus
c / max (distance, ε) with c = 1000 and ε = 1 shared by all agents; the
engine's integer comparison decides exactly that rational ordering; and
whenever two agents compute the exact same score for a candidate, the agent
with the lower id wins the assignment. -/
theorem claim3_scoreFormula :
    (∀ (did eid : ℕ) (d : ℚ),
      scoreQ did eid d = ((did * 7919 + eid * 6547) % 1000 : ℕ) + 1000 / max d 1) ∧
    (∀ (epos : Vec3) (eid : ℕ) (a b : FrameAgent),
      scoreGtB (hashScore a.id eid) (effDen (distDm a.pos epos))
          (hashScore b.id eid) (effDen (distDm b.pos epos)) = true ↔
        faScoreQ epos eid b < faScoreQ epos eid a) ∧
    (∀ (fs : List FrameAgent) (epos : Vec3) (eid rdm : ℕ) (r x : FrameAgent),
      (fs.map FrameAgent.id).Nodup →
      ownerCore fs epos eid rdm = some r →
      x ∈ fs → faObserves x epos rdm = true →
      faScoreQ epos eid x = faScoreQ epos eid r →
      x.id ≠ r.id →
      r.id < x.id) := by
  refine ⟨fun _ _ _ => rfl, ?_, ?_⟩
  · intro epos eid a b
    rw [scoreGtBIff _ _ _ _ (effDenPos _) (effDenPos _), ← faScoreQEq, ← faScoreQEq]
  · intro fs epos eid rdm r x hnd hown hxf hxo heq hne
    have hipo := ownerCoreDominates fs epos eid rdm r hnd hown
    have hbeats := hipo.2.2 x hxf hxo hne
    rw [faBeatsIff] at hbeats
    rcases hbeats with h | ⟨_, h⟩
    · rw [heq] at h
      exact absurd h (lt_irrefl _)
    · exact h

theorem claim3_witness : tieA.id < tieB.id :=
  claim3_scoreFormula.2.2 [tieA, tieB] ⟨0, 0, 0⟩ 0 1500 tieA tieB
    (by decide) (by decide) (by decide) (by decide)
    (by norm_num [faScoreQ, scoreQ, hashScore, tieA, tieB])
    (by decide)
